import Mathlib

/-!
Verification of the tcell terminal-screen core against its specification.

The development shallowly embeds the two backends found in the sources:

* `src/tscreen.go`  — the terminfo/POSIX backend (`tScreen`), including its
  input decoder (`scanInput`, `parseRune`, `parseFunctionKey`,
  `parseXtermMouse`, `parseSgrMouse`, `postMouseEvent`) and the
  grid-mutation operations (`SetCell`, `PutCell`, `GetCell`, `Clear`,
  `SetStyle`, `ShowCursor`, `Show`, `Fini`, `PostEvent`).
* `src/console_win.go` — the Windows console backend (`cScreen`) and its
  grid-mutation operations and `PostEvent`.

Bytes are modelled as `Nat` (values < 256), runes as `Nat` code points,
Go `int` values that can go negative (coordinates, SGR accumulators) as
`Int`.  The few two's-complement bitwise operations Go performs on `int`
values (`& 0x43`, `| 3`, `&^ 32`, `&^ 0x40`, single-bit tests) are
implemented arithmetically over `Int` (`bitAt`, `goAnd67`, `goAndClear`,
`goOr3`), correct for negative operands as well.

The repository's `Cell`, `Style`, `Key` and event-constructor definitions
(`cell.go`, `style.go`, `key.go`, ...) are not among the sources; where a
definition below stands in for them it is modelled from the spec and its
doc comment says so.
-/

/-- Modelled from the spec: `Style` (style.go is not among the sources).
The spec describes a packed fg/bg/attribute triple whose packing is an
implementation detail; the source uses it as an opaque comparable value
(including the sentinel `Style(-1)` in `tScreen.Fini`), so it is modelled
as `Int`. -/
abbrev Style := Int

/-- Modelled from the spec: the default style `(Default, Default, 0)`. -/
def StyleDefault : Style := 0

/-- Modelled from the spec: named keys (key.go is not among the sources).
`keyRune` is the sentinel saying the rune field carries the character;
the terminfo-declared keys (F1.., arrows, ...) are opaque to the decoder
and are modelled by a code. -/
inductive Key where
  | keyRune : Key
  | named : Nat → Key
deriving DecidableEq, Repr

/-- Modelled from the spec: modifier mask bits (Shift, Ctrl, Alt, Meta). -/
abbrev ModMask := Nat

def ModNone : ModMask := 0
def ModShift : ModMask := 1
def ModCtrl : ModMask := 2
def ModAlt : ModMask := 4
def ModMeta : ModMask := 8

/-- Modelled from the spec: button mask bits `Button1..Button5` and the
wheel buttons. -/
abbrev ButtonMask := Nat

def ButtonNone : ButtonMask := 0
def Button1 : ButtonMask := 1
def Button2 : ButtonMask := 2
def Button3 : ButtonMask := 4
def Button4 : ButtonMask := 8
def Button5 : ButtonMask := 16
def WheelUp : ButtonMask := 32
def WheelDown : ButtonMask := 64
def WheelLeft : ButtonMask := 128
def WheelRight : ButtonMask := 256

/-- Modelled from the spec: the tagged event variant (event sources are
not among the source files).  Key events carry `(key, rune, mods)`, mouse
events `(x, y, buttons, mods)`, resize events `(w, h)`. -/
inductive Event where
  | key : Key → Nat → ModMask → Event
  | mouse : Int → Int → ButtonMask → ModMask → Event
  | resize : Int → Int → Event
deriving DecidableEq, Repr

/-- Source `NewEventKey` (constructor; modelled from the spec). -/
def NewEventKey (k : Key) (r : Nat) (m : ModMask) : Event := Event.key k r m

/-- Source `NewEventMouse` (constructor; modelled from the spec). -/
def NewEventMouse (x y : Int) (b : ButtonMask) (m : ModMask) : Event :=
  Event.mouse x y b m

/-- Source `NewEventResize` (constructor; modelled from the spec). -/
def NewEventResize (w h : Int) : Event := Event.resize w h

/-- Modelled from the spec: width of a primary rune (East-Asian-Width
contract: controls are 0, Unicode `W`/`F` classes are 2, else 1).  The
spec allows a small table; the main wide ranges are listed.  No claim
exercises particular width values. -/
def runeWidth (r : Nat) : Nat :=
  if r < 0x20 then 0
  else if (0x1100 ≤ r ∧ r ≤ 0x115F) ∨ (0x2E80 ≤ r ∧ r ≤ 0x303E) ∨
      (0x3041 ≤ r ∧ r ≤ 0x33FF) ∨ (0x3400 ≤ r ∧ r ≤ 0x4DBF) ∨
      (0x4E00 ≤ r ∧ r ≤ 0x9FFF) ∨ (0xA000 ≤ r ∧ r ≤ 0xA4CF) ∨
      (0xAC00 ≤ r ∧ r ≤ 0xD7A3) ∨ (0xF900 ≤ r ∧ r ≤ 0xFAFF) ∨
      (0xFE30 ≤ r ∧ r ≤ 0xFE4F) ∨ (0xFF00 ≤ r ∧ r ≤ 0xFF60) ∨
      (0xFFE0 ≤ r ∧ r ≤ 0xFFE6) ∨ (0x20000 ≤ r ∧ r ≤ 0x2FFFD) ∨
      (0x30000 ≤ r ∧ r ≤ 0x3FFFD) then 2
  else 1

/-- Modelled from the spec: width of a cell's rune sequence (width of the
primary rune; an empty cell is drawn as a single space). -/
def cellWidth (ch : List Nat) : Nat :=
  match ch with
  | [] => 1
  | r :: _ => runeWidth r

/-- Modelled from the spec: `Cell` (cell.go is not among the sources).
A cell holds a rune sequence (primary plus combining), a style, a width
and a dirty flag.  The sources use the fields `Ch`, `Style`, `Width`,
`Dirty`. -/
structure Cell where
  Ch : List Nat
  CStyle : Style
  Width : Nat
  Dirty : Bool
deriving DecidableEq, Repr, Inhabited

/-- Modelled from the spec: `Cell.PutChars` — replace the rune sequence;
a write sets `Dirty` iff the new content differs (an equal write keeps
the old flag; only the reconciler clears it). -/
def Cell.PutChars (c : Cell) (ch : List Nat) : Cell :=
  { c with Ch := ch, Width := cellWidth ch, Dirty := c.Dirty || ch ≠ c.Ch }

/-- Modelled from the spec: `Cell.PutStyle` — replace the style, marking
dirty iff it differs. -/
def Cell.PutStyle (c : Cell) (st : Style) : Cell :=
  { c with CStyle := st, Dirty := c.Dirty || st ≠ c.CStyle }

/-- Modelled from the spec: `Cell.SetCell` — write both the rune sequence
and the style (used by the screens' `SetCell`). -/
def Cell.SetCell (c : Cell) (ch : List Nat) (st : Style) : Cell :=
  (c.PutChars ch).PutStyle st

/-- Modelled from the spec: `ClearCells` — rewrite every cell to a space
with the given style. -/
def ClearCells (cells : List Cell) (st : Style) : List Cell :=
  cells.map (fun c => c.SetCell [32] st)

/-! ## Event channel (claim C2)

`tScreen.Init` creates `make(chan Event, 10)` (src/tscreen.go:98);
`cScreen.Init` creates `make(chan Event, 2)` (src/console_win.go:79).
A channel is modelled by its queue of undelivered events plus its
capacity. -/

/-- Capacity of the terminfo backend's event channel
(src/tscreen.go:98: `make(chan Event, 10)`). -/
def tScreenEvchCap : Nat := 10

/-- Capacity of the console backend's event channel
(src/console_win.go:79: `make(chan Event, 2)`). -/
def cScreenEvchCap : Nat := 2

/-- src/tscreen.go:651 `tScreen.PostEvent`: a `select` with a `default`
branch — if the channel has room the event is queued, otherwise the
event is dropped on the floor and the call returns immediately with the
queue unchanged. -/
def tScreenPostEvent (q : List Event) (ev : Event) : List Event :=
  if q.length < tScreenEvchCap then q ++ [ev] else q

/-- src/console_win.go:144 `cScreen.PostEvent`: a `select` with NO
default branch over `<-s.quit` and `s.evch <- ev`.  The call can complete
only by one of the two communications: receiving from the closed `quit`
channel (discarding the event) or sending into the queue when it has
room.  When neither is ready the call blocks; blocking is modelled as
the absence of any step. -/
inductive cScreenPostStep (quitClosed : Bool) (ev : Event) :
    List Event → List Event → Prop where
  | recvQuit (q : List Event) (h : quitClosed = true) :
      cScreenPostStep quitClosed ev q q
  | send (q : List Event) (h : q.length < cScreenEvchCap) :
      cScreenPostStep quitClosed ev q (q ++ [ev])

/-! ## Screen state and grid-mutation operations (claims C1, C8, C9)

Only the fields the mutating operations touch are modelled; channels and
OS handles are treated in their own sections.  Coordinates and
dimensions are Go `int`, modelled as `Int`.  The grid is the row-major
cell list `cells` indexed by `(y*w)+x` as in the source. -/

/-- The terminfo backend's screen state (src/tscreen.go `tScreen`):
finalized flag, dimensions, grid, pending and last-emitted style,
desired cursor, tracked physical cursor and the clear-on-next-show
flag. -/
structure TScreen where
  fini : Bool
  w : Int
  h : Int
  cells : List Cell
  style : Style
  curstyle : Style
  cursorx : Int
  cursory : Int
  cx : Int
  cy : Int
  clear : Bool
deriving DecidableEq, Repr

namespace TScreen

/-- src/tscreen.go:273 `tScreen.SetCell`: under the lock, return
unchanged when finalized or out of bounds, else write the cell at
`(y*w)+x` via `Cell.SetCell`. -/
def SetCell (t : TScreen) (x y : Int) (st : Style) (ch : List Nat) : TScreen :=
  if t.fini ∨ x < 0 ∨ y < 0 ∨ x ≥ t.w ∨ y ≥ t.h then t
  else
    let idx := ((y * t.w) + x).toNat
    { t with cells := t.cells.set idx ((t.cells.getD idx default).SetCell ch st) }

/-- src/tscreen.go:285 `tScreen.PutCell`: same guard; copies style and
runes from the source cell (`PutStyle` then `PutChars`). -/
def PutCell (t : TScreen) (x y : Int) (cell : Cell) : TScreen :=
  if t.fini ∨ x < 0 ∨ y < 0 ∨ x ≥ t.w ∨ y ≥ t.h then t
  else
    let idx := ((y * t.w) + x).toNat
    { t with cells :=
        t.cells.set idx (((t.cells.getD idx default).PutStyle cell.CStyle).PutChars cell.Ch) }

/-- src/tscreen.go:297 `tScreen.GetCell`: returns `nil` (here `none`)
when finalized or out of bounds, else a copy of the stored cell value
(`cell := t.cells[...]; return &cell`).  The method body performs no
write; the returned screen component records that. -/
def GetCell (t : TScreen) (x y : Int) : Option Cell × TScreen :=
  if t.fini ∨ x < 0 ∨ y < 0 ∨ x ≥ t.w ∨ y ≥ t.h then (none, t)
  else (some (t.cells.getD ((y * t.w) + x).toNat default), t)

/-- src/tscreen.go:264 `tScreen.Clear`: when not finalized, rewrite every
cell to a space in the pending style. -/
def Clear (t : TScreen) : TScreen :=
  if t.fini then t else { t with cells := ClearCells t.cells t.style }

/-- src/tscreen.go:256 `tScreen.SetStyle`. -/
def SetStyle (t : TScreen) (st : Style) : TScreen :=
  if t.fini then t else { t with style := st }

/-- src/tscreen.go:450 `tScreen.ShowCursor`: record the desired cursor
position when not finalized. -/
def ShowCursor (t : TScreen) (x y : Int) : TScreen :=
  if t.fini then t else { t with cursorx := x, cursory := y }

/-- src/tscreen.go:482 `tScreen.Show`: when not finalized run `resize`
then `draw`.  That body performs terminal I/O and consults the OS window
size, none of which the claims touch, so it is abstracted as a state
transformer argument; the finalized guard is the modelled logic. -/
def Show (t : TScreen) (body : TScreen → TScreen) : TScreen :=
  if t.fini then t else body t

/-- src/tscreen.go:233 `tScreen.Fini`: set the finalized flag, zero the
dimensions, drop the grid, poison `curstyle` with the `Style(-1)`
sentinel and reset the clear flag (the terminal restoration strings,
channel close and termios calls are I/O). -/
def Fini (t : TScreen) : TScreen :=
  { t with fini := true, w := 0, h := 0, cells := [], curstyle := (-1 : Int), clear := false }

end TScreen

/-- The console backend's screen state (src/console_win.go `cScreen`):
dimensions, grid, pending style, desired cursor and clear flag.  Note
that `cScreen` has NO finalized flag — nothing records that `Fini` has
run. -/
structure CScreen where
  w : Int
  h : Int
  cells : List Cell
  style : Style
  curx : Int
  cury : Int
  clear : Bool
deriving DecidableEq, Repr

namespace CScreen

/-- src/console_win.go:619 `cScreen.SetCell`: only a bounds guard — no
finalized check. -/
def SetCell (s : CScreen) (x y : Int) (st : Style) (ch : List Nat) : CScreen :=
  if x < 0 ∨ y < 0 ∨ x ≥ s.w ∨ y ≥ s.h then s
  else
    let idx := ((y * s.w) + x).toNat
    { s with cells := s.cells.set idx ((s.cells.getD idx default).SetCell ch st) }

/-- src/console_win.go:632 `cScreen.PutCell` (`PutChars` then
`PutStyle`). -/
def PutCell (s : CScreen) (x y : Int) (cell : Cell) : CScreen :=
  if x < 0 ∨ y < 0 ∨ x ≥ s.w ∨ y ≥ s.h then s
  else
    let idx := ((y * s.w) + x).toNat
    { s with cells :=
        s.cells.set idx (((s.cells.getD idx default).PutChars cell.Ch).PutStyle cell.CStyle) }

/-- src/console_win.go:644 `cScreen.GetCell`: `nil` out of bounds, else
a copy of the stored cell; no write happens. -/
def GetCell (s : CScreen) (x y : Int) : Option Cell × CScreen :=
  if x < 0 ∨ y < 0 ∨ x ≥ s.w ∨ y ≥ s.h then (none, s)
  else (some (s.cells.getD ((y * s.w) + x).toNat default), s)

/-- src/console_win.go:810 `cScreen.Clear`. -/
def Clear (s : CScreen) : CScreen :=
  { s with cells := ClearCells s.cells s.style, clear := true }

/-- src/console_win.go:877 `cScreen.SetStyle` — no guard of any kind. -/
def SetStyle (s : CScreen) (st : Style) : CScreen :=
  { s with style := st }

/-- src/console_win.go:190 `cScreen.ShowCursor`. -/
def ShowCursor (s : CScreen) (x y : Int) : CScreen :=
  { s with curx := x, cury := y }

/-- src/console_win.go:124 `cScreen.Fini`: resets the style and cursor
fields and restores/releases console resources (external calls), but
does NOT set any finalized flag, does not drop the grid and does not
zero the dimensions. -/
def Fini (s : CScreen) : CScreen :=
  { s with style := StyleDefault, curx := -1, cury := -1 }

end CScreen

/-! ## Input decoder (claims C3, C4, C5, C6, C7, C10)

The decoder of src/tscreen.go.  Its screen context is the key table
built by `prepareKeys`, the mouse capability flag (`t.ti.Mouse != ""`),
the charset and the dimensions (used by `postMouseEvent` for clipping);
its mutable state is the `wasbtn` debounce flag.  Parsers return the Go
pair `(partial, complete)` as the fields `needMore`/`done` together with
the remaining buffer and the posted events. -/

/-- Charset in effect.  `tScreen.Init` handles `UTF-8` and `US-ASCII`
directly (src/tscreen.go:104); any other charset routes bytes through an
external codec factory, which the spec places out of scope. -/
inductive Charset where
  | utf8 : Charset
  | usAscii : Charset
deriving DecidableEq, Repr

/-- Decoder-relevant screen context of `tScreen`. -/
structure Scr where
  keys : List (Key × List Nat)
  hasMouse : Bool
  charset : Charset
  w : Int
  h : Int
deriving Repr

/-- Result of one sub-parser: the Go pair `(partial, complete)` (here
`needMore`, `done`), the buffer after any consumption, the events posted
and the `wasbtn` debounce flag after the call. -/
structure ParseOut where
  needMore : Bool
  done : Bool
  buf : List Nat
  evs : List Event
  wasbtn : Bool
deriving DecidableEq, Repr

/-- Two's-complement bit of `a` at the power-of-two position `m`
(`m = 2^i`): Go `(a >> i) & 1` for `int` values, negative included. -/
def bitAt (a m : Int) : Int := (Int.fdiv a m).emod 2

/-- Go `a & 0x43` on `int` (mask bits 0, 1 and 6). -/
def goAnd67 (a : Int) : Int := a.emod 4 + 64 * bitAt a 64

/-- Go `a &^ m` for a single-bit mask `m` (clear that bit). -/
def goAndClear (a m : Int) : Int := a - m * bitAt a m

/-- Go `a | 3` on `int` (set bits 0 and 1). -/
def goOr3 (a : Int) : Int := a - a.emod 4 + 3

example : goAnd67 35 = 3 := by decide
example : goAnd67 (-1) = 67 := by decide
example : goAndClear 35 32 = 3 := by decide
example : goOr3 64 = 67 := by decide

/-- src/tscreen.go:659 `tScreen.postMouseEvent`: decode the button
parameter (low bits plus the wheel bit, with the `wasbtn` debounce),
the modifier bits 0x04/0x08/0x10, clip the coordinates to the screen
and build the mouse event that is posted.  Returns the new `wasbtn`
and the event. -/
def postMouseEvent (scr : Scr) (wasbtn : Bool) (x y btn : Int) : Bool × Event :=
  let bb := goAnd67 btn
  let bw : ButtonMask × Bool :=
    if bb = 0 then (Button1, true)
    else if bb = 1 then (Button2, true)
    else if bb = 2 then (Button3, true)
    else if bb = 3 then (ButtonNone, false)
    else if bb = 0x40 then (if wasbtn then Button1 else WheelUp, wasbtn)
    else if bb = 0x41 then (if wasbtn then Button2 else WheelDown, wasbtn)
    else (ButtonNone, wasbtn)
  let m : ModMask :=
    (if bitAt btn 4 = 1 then ModShift else ModNone) +
    (if bitAt btn 8 = 1 then ModMeta else ModNone) +
    (if bitAt btn 16 = 1 then ModCtrl else ModNone)
  let x1 := if x < 0 then 0 else x
  let x2 := if x1 > scr.w - 1 then scr.w - 1 else x1
  let y1 := if y < 0 then 0 else y
  let y2 := if y1 > scr.h - 1 then scr.h - 1 else y1
  (bw.2, NewEventMouse x2 y2 bw.1 m)

/-- First-byte classification of Go's `unicode/utf8`: for a leading byte
give `(size, lo, hi)` — the sequence length and the accept range of the
second byte; `none` for bytes that can never start a sequence
(`0x80..0xC1`, `0xF5..0xFF`). -/
def utf8Info (b0 : Nat) : Option (Nat × Nat × Nat) :=
  if 0xC2 ≤ b0 ∧ b0 ≤ 0xDF then some (2, 0x80, 0xBF)
  else if b0 = 0xE0 then some (3, 0xA0, 0xBF)
  else if b0 = 0xED then some (3, 0x80, 0x9F)
  else if 0xE1 ≤ b0 ∧ b0 ≤ 0xEF then some (3, 0x80, 0xBF)
  else if b0 = 0xF0 then some (4, 0x90, 0xBF)
  else if b0 = 0xF4 then some (4, 0x80, 0x8F)
  else if 0xF1 ≤ b0 ∧ b0 ≤ 0xF3 then some (4, 0x80, 0xBF)
  else none

/-- Go `utf8.FullRune`: whether the buffer begins with a full UTF-8
encoding; an invalid encoding counts as full since it decodes as a
width-1 error rune. -/
def utf8FullRune (b : List Nat) : Bool :=
  match b with
  | [] => false
  | b0 :: rest =>
    if b0 < 0x80 then true
    else
      match utf8Info b0 with
      | none => true
      | some (sz, lo, hi) =>
        if sz ≤ rest.length + 1 then true
        else
          match rest with
          | [] => false
          | b1 :: rest2 =>
            if b1 < lo ∨ hi < b1 then true
            else
              match rest2 with
              | [] => false
              | b2 :: _ => decide (b2 < 0x80 ∨ 0xBF < b2)

/-- Go `utf8.DecodeRune` (also the rune read of `bytes.Buffer.ReadRune`):
the first rune in the buffer and the number of bytes it occupies; any
invalid encoding gives `(RuneError, 1)` = `(0xFFFD, 1)`. -/
def utf8DecodeRune (b : List Nat) : Nat × Nat :=
  match b with
  | [] => (0xFFFD, 0)
  | b0 :: rest =>
    if b0 < 0x80 then (b0, 1)
    else
      match utf8Info b0 with
      | none => (0xFFFD, 1)
      | some (sz, lo, hi) =>
        match rest with
        | [] => (0xFFFD, 1)
        | b1 :: rest2 =>
          if b1 < lo ∨ hi < b1 then (0xFFFD, 1)
          else if sz = 2 then ((b0 % 0x20) * 0x40 + b1 % 0x40, 2)
          else
            match rest2 with
            | [] => (0xFFFD, 1)
            | b2 :: rest3 =>
              if b2 < 0x80 ∨ 0xBF < b2 then (0xFFFD, 1)
              else if sz = 3 then
                ((b0 % 0x10) * 0x1000 + (b1 % 0x40) * 0x40 + b2 % 0x40, 3)
              else
                match rest3 with
                | [] => (0xFFFD, 1)
                | b3 :: _ =>
                  if b3 < 0x80 ∨ 0xBF < b3 then (0xFFFD, 1)
                  else ((b0 % 8) * 0x40000 + (b1 % 0x40) * 0x1000 +
                    (b2 % 0x40) * 0x40 + b3 % 0x40, 4)

example : utf8FullRune [0xE2, 0x98] = false := by decide
example : utf8FullRune [0xE2, 0x98, 0x83] = true := by decide
example : utf8DecodeRune [0xE2, 0x98, 0x83] = (0x2603, 3) := by decide

/-- src/tscreen.go:910 `tScreen.parseRune`: printable ASCII is emitted
immediately; low bytes never start an encoding; high bytes consult the
charset (full UTF-8 sequence → decode and emit, incomplete → partial;
US-ASCII → Alt + (byte-128)).  The unguarded `b[0]` of the source is the
`none` of the empty-buffer case. -/
def parseRune (cs : Charset) (wb : Bool) (buf : List Nat) : Option ParseOut :=
  match buf with
  | [] => none
  | b0 :: rest =>
    some (
      if 32 ≤ b0 ∧ b0 ≤ 0x7F then
        ⟨true, true, rest, [NewEventKey Key.keyRune b0 ModNone], wb⟩
      else if b0 < 0x80 then ⟨false, false, buf, [], wb⟩
      else
        match cs with
        | Charset.utf8 =>
          if utf8FullRune buf then
            let rs := utf8DecodeRune buf
            ⟨true, true, buf.drop rs.2, [NewEventKey Key.keyRune rs.1 ModNone], wb⟩
          else ⟨true, false, buf, [], wb⟩
        | Charset.usAscii =>
          ⟨true, true, rest, [NewEventKey Key.keyRune (b0 - 128) ModAlt], wb⟩)

/-- Loop body of src/tscreen.go:886 `tScreen.parseFunctionKey`: walk the
key table; the first escape that is a prefix of the buffer is emitted at
once (consuming it) — the accumulated partial flag records whether the
buffer is a prefix of some escape.  (Go iterates its map in an
unspecified order; the table is modelled as a list in some order.) -/
def parseFunctionKeyAux (wb : Bool) (buf : List Nat) :
    List (Key × List Nat) → Bool → ParseOut
  | [], acc => ⟨acc, false, buf, [], wb⟩
  | (k, esc) :: rest, acc =>
    if esc.isPrefixOf buf then
      ⟨true, true, buf.drop esc.length,
        [NewEventKey k (if esc.length = 1 then buf.headD 0 else 0) ModNone], wb⟩
    else parseFunctionKeyAux wb buf rest (acc || buf.isPrefixOf esc)

/-- src/tscreen.go:886 `tScreen.parseFunctionKey`. -/
def parseFunctionKey (keys : List (Key × List Nat)) (wb : Bool) (buf : List Nat) : ParseOut :=
  parseFunctionKeyAux wb buf keys false

/-- State loop of src/tscreen.go:837 `tScreen.parseXtermMouse`
(`ESC [ M b x y` or `CSI M b x y`): the button byte is taken raw, the
coordinate bytes offset by 33; on the sixth byte the event is posted and
six bytes consumed; running out of bytes is a partial match. -/
def parseXtermMouseAux (scr : Scr) (wb : Bool) (orig : List Nat) :
    List Nat → Nat → Int → Int → ParseOut
  | [], _, _, _ => ⟨true, false, orig, [], wb⟩
  | c :: rest, state, btn, x =>
    match state with
    | 0 =>
      if c = 0x1b then parseXtermMouseAux scr wb orig rest 1 btn x
      else if c = 0x9b then parseXtermMouseAux scr wb orig rest 2 btn x
      else ⟨false, false, orig, [], wb⟩
    | 1 =>
      if c = 91 then parseXtermMouseAux scr wb orig rest 2 btn x
      else ⟨false, false, orig, [], wb⟩
    | 2 =>
      if c = 77 then parseXtermMouseAux scr wb orig rest 3 btn x
      else ⟨false, false, orig, [], wb⟩
    | 3 => parseXtermMouseAux scr wb orig rest 4 (c : Int) x
    | 4 => parseXtermMouseAux scr wb orig rest 5 btn ((c : Int) - 32 - 1)
    | _ =>
      let y := (c : Int) - 32 - 1
      let pe := postMouseEvent scr wb x y btn
      ⟨true, true, rest, [pe.2], pe.1⟩

/-- src/tscreen.go:837 `tScreen.parseXtermMouse`. -/
def parseXtermMouse (scr : Scr) (wb : Bool) (buf : List Nat) : ParseOut :=
  parseXtermMouseAux scr wb buf buf 0 0 0

/-- State loop of src/tscreen.go:734 `tScreen.parseSgrMouse`
(`ESC [ < btn ; x ; y (M|m)`).  The `-` branch keeps the source's check
`state != 3 || state != 4 || state != 5`, a tautology, so any `-` is a
definite non-match.  A byte matching no case of the switch is skipped
with the state unchanged, as in the source.  On `M`/`m` the motion bit
is cleared, release forces `btn |= 3; btn &^= 0x40`, the bytes through
the final letter are consumed and the event posted. -/
def parseSgrMouseAux (scr : Scr) (wb : Bool) (orig : List Nat) :
    List Nat → Nat → Int → Int → Int → Bool → Bool → ParseOut
  | [], _, _, _, _, _, _ => ⟨true, false, orig, [], wb⟩
  | c :: rest, state, btn, x, val, dig, neg =>
    if c = 0x1b then
      if state ≠ 0 then ⟨false, false, orig, [], wb⟩
      else parseSgrMouseAux scr wb orig rest 1 btn x val dig neg
    else if c = 0x9b then
      if state ≠ 0 then ⟨false, false, orig, [], wb⟩
      else parseSgrMouseAux scr wb orig rest 2 btn x val dig neg
    else if c = 91 then
      if state ≠ 1 then ⟨false, false, orig, [], wb⟩
      else parseSgrMouseAux scr wb orig rest 2 btn x val dig neg
    else if c = 60 then
      if state ≠ 2 then ⟨false, false, orig, [], wb⟩
      else parseSgrMouseAux scr wb orig rest 3 btn x 0 false false
    else if c = 45 then
      if state ≠ 3 ∨ state ≠ 4 ∨ state ≠ 5 then ⟨false, false, orig, [], wb⟩
      else if dig ∨ neg then ⟨false, false, orig, [], wb⟩
      else parseSgrMouseAux scr wb orig rest state btn x val dig true
    else if 48 ≤ c ∧ c ≤ 57 then
      if ¬(state = 3 ∨ state = 4 ∨ state = 5) then ⟨false, false, orig, [], wb⟩
      else parseSgrMouseAux scr wb orig rest state btn x (val * 10 + ((c : Int) - 48)) true neg
    else if c = 59 then
      let v := if neg then -val else val
      if state = 3 then parseSgrMouseAux scr wb orig rest 4 v x 0 false false
      else if state = 4 then parseSgrMouseAux scr wb orig rest 5 btn v 0 false false
      else ⟨false, false, orig, [], wb⟩
    else if c = 109 ∨ c = 77 then
      if state ≠ 5 then ⟨false, false, orig, [], wb⟩
      else
        let y := if neg then -val else val
        let btn1 := goAndClear btn 32
        let btn2 := if c = 109 then goAndClear (goOr3 btn1) 64 else btn1
        let pe := postMouseEvent scr wb x y btn2
        ⟨true, true, rest, [pe.2], pe.1⟩
    else parseSgrMouseAux scr wb orig rest state btn x val dig neg

/-- src/tscreen.go:734 `tScreen.parseSgrMouse`. -/
def parseSgrMouse (scr : Scr) (wb : Bool) (buf : List Nat) : ParseOut :=
  parseSgrMouseAux scr wb buf buf 0 0 0 0 false false

/-- Partial-counter contribution of one parser result
(`partials++` in src/tscreen.go:964 `scanInput`). -/
def pcount (r : ParseOut) : Nat := if r.needMore then 1 else 0

/-- Fuel-indexed loop of src/tscreen.go:964 `tScreen.scanInput`: while
the buffer is non-empty try `parseRune`, `parseFunctionKey` and — only
when the terminal declares mouse support — `parseXtermMouse` and
`parseSgrMouse`; restart after any complete match; if nothing matched
and either no parser reported partial or `expire` is set, consume one
byte as a raw `KeyRune` event; otherwise stop and keep the buffer.
`none` models a fault (empty-buffer access) or a non-terminating loop;
`scanInput_no_fault` below shows neither occurs at the fuel
`scanInput` supplies. -/
def scanAux (scr : Scr) (expire : Bool) :
    Nat → Bool → List Nat → Option (List Event × List Nat × Bool)
  | 0, _, _ => none
  | Nat.succ fuel, wb, buf =>
    if buf = [] then some ([], [], wb)
    else
      match parseRune scr.charset wb buf with
      | none => none
      | some r1 =>
        if r1.done then
          (scanAux scr expire fuel r1.wasbtn r1.buf).map
            (fun o => (r1.evs ++ o.1, o.2.1, o.2.2))
        else
          let r2 := parseFunctionKey scr.keys wb buf
          if r2.done then
            (scanAux scr expire fuel r2.wasbtn r2.buf).map
              (fun o => (r2.evs ++ o.1, o.2.1, o.2.2))
          else
            if scr.hasMouse then
              let r3 := parseXtermMouse scr wb buf
              if r3.done then
                (scanAux scr expire fuel r3.wasbtn r3.buf).map
                  (fun o => (r3.evs ++ o.1, o.2.1, o.2.2))
              else
                let r4 := parseSgrMouse scr wb buf
                if r4.done then
                  (scanAux scr expire fuel r4.wasbtn r4.buf).map
                    (fun o => (r4.evs ++ o.1, o.2.1, o.2.2))
                else
                  if pcount r1 + pcount r2 + pcount r3 + pcount r4 = 0 ∨ expire then
                    match buf with
                    | b0 :: rest =>
                      (scanAux scr expire fuel wb rest).map
                        (fun o => (NewEventKey Key.keyRune b0 ModNone :: o.1, o.2.1, o.2.2))
                    | [] => none
                  else some ([], buf, wb)
            else
              if pcount r1 + pcount r2 = 0 ∨ expire then
                match buf with
                | b0 :: rest =>
                  (scanAux scr expire fuel wb rest).map
                    (fun o => (NewEventKey Key.keyRune b0 ModNone :: o.1, o.2.1, o.2.2))
                | [] => none
              else some ([], buf, wb)

/-- src/tscreen.go:964 `tScreen.scanInput`: run the scan loop on the
buffered bytes.  One more unit of fuel than there are bytes always
suffices (each restarted iteration has consumed at least one byte);
`scanInput_no_fault` proves the supply is enough. -/
def scanInput (scr : Scr) (wb : Bool) (buf : List Nat) (expire : Bool) :
    Option (List Event × List Nat × Bool) :=
  scanAux scr expire (buf.length + 1) wb buf

/-! ## Claim C1 — mutating operations after `fini` -/

/-- C1: the spec says that after `fini()` every mutating operation on
either backend is a no-op.  For the terminfo backend this holds:
`tScreen.Fini` sets the finalized flag and every mutator is guarded by
it.  The console backend however has no finalized flag at all: after
`cScreen.Fini` an in-bounds `SetCell` still mutates the grid, refuting
the claim for the console backend (see the concrete final conjunct). -/
theorem C1_theorem :
    (∀ t : TScreen, (t.Fini).fini = true) ∧
    (∀ (t : TScreen) (x y : Int) (st : Style) (ch : List Nat) (cell : Cell)
      (cx cy : Int) (body : TScreen → TScreen), t.fini = true →
      t.SetCell x y st ch = t ∧ t.PutCell x y cell = t ∧ t.Clear = t ∧
      t.SetStyle st = t ∧ t.ShowCursor cx cy = t ∧ t.Show body = t) ∧
    ((CScreen.Fini ⟨1, 1, [⟨[32], 0, 1, false⟩], 0, 0, 0, false⟩).SetCell 0 0 5 [65] ≠
      CScreen.Fini ⟨1, 1, [⟨[32], 0, 1, false⟩], 0, 0, 0, false⟩) := by
  refine ⟨fun t => rfl, fun t x y st ch cell cx cy body hf => ?_, by decide⟩
  unfold TScreen.SetCell TScreen.PutCell TScreen.Clear TScreen.SetStyle
    TScreen.ShowCursor TScreen.Show
  simp [hf]

/-- C1 witness: the terminfo half of `C1_theorem` evaluated on a
finalized screen. -/
theorem C1_witness :
    TScreen.SetCell ⟨true, 0, 0, [], 0, 0, -1, -1, -1, -1, false⟩ 0 0 5 [65] =
      ⟨true, 0, 0, [], 0, 0, -1, -1, -1, -1, false⟩ :=
  (C1_theorem.2.1 ⟨true, 0, 0, [], 0, 0, -1, -1, -1, -1, false⟩ 0 0 5 [65]
    ⟨[32], 0, 1, false⟩ 0 0 id rfl).1

/-! ## Claim C2 — bounded channel, non-blocking post -/

/-- C2 counterexample: the claim says `post_event` is non-blocking for
every screen — on a full channel it returns immediately leaving the
queue unchanged.  On the console backend (capacity 2), with the quit
channel still open and the queue full, `cScreen.PostEvent` admits no
completing step at all: the `select` has no default branch, so the call
blocks instead of returning. -/
theorem C2_counterexample :
    ¬ ∃ q', cScreenPostStep false (Event.resize 0 0)
      [Event.resize 0 0, Event.resize 0 0] q' := by
  rintro ⟨q', h⟩
  cases h with
  | recvQuit hq => exact absurd hq (by simp)
  | send hlen => simp [cScreenEvchCap] at hlen

/-- C2 amended: the terminfo backend's `PostEvent` is non-blocking with
drop-on-full semantics on its capacity-10 channel; the console backend's
channel has capacity 2 but its `PostEvent` is blocking — while quit is
open it can only complete by delivering into a non-full queue, and on a
full queue no completion exists. -/
theorem C2_theorem :
    tScreenEvchCap = 10 ∧ cScreenEvchCap = 2 ∧
    (∀ (q : List Event) (ev : Event), tScreenEvchCap ≤ q.length →
      tScreenPostEvent q ev = q) ∧
    (∀ (q : List Event) (ev : Event), q.length < tScreenEvchCap →
      tScreenPostEvent q ev = q ++ [ev]) ∧
    (∀ (q q' : List Event) (ev : Event), cScreenPostStep false ev q q' →
      q.length < cScreenEvchCap ∧ q' = q ++ [ev]) ∧
    (∀ (q : List Event) (ev : Event), cScreenEvchCap ≤ q.length →
      ¬ ∃ q', cScreenPostStep false ev q q') := by
  refine ⟨rfl, rfl, ?_, ?_, ?_, ?_⟩
  · intro q ev h
    unfold tScreenPostEvent
    rw [if_neg]
    omega
  · intro q ev h
    unfold tScreenPostEvent
    rw [if_pos h]
  · intro q q' ev h
    cases h with
    | recvQuit hq => exact absurd hq (by simp)
    | send hlen => exact ⟨hlen, rfl⟩
  · intro q ev h
    rintro ⟨q', hs⟩
    cases hs with
    | recvQuit hq => exact absurd hq (by simp)
    | send hlen => omega

/-- C2 witness: `C2_theorem` evaluated on a full capacity-10 queue
(terminfo: the event is dropped, the queue unchanged) and a full
capacity-2 queue (console: no completing step). -/
theorem C2_witness :
    tScreenPostEvent (List.replicate 10 (Event.resize 0 0)) (Event.resize 1 1) =
      List.replicate 10 (Event.resize 0 0) ∧
    ¬ ∃ q', cScreenPostStep false (Event.resize 1 1)
      [Event.resize 0 0, Event.resize 0 0] q' :=
  ⟨C2_theorem.2.2.1 _ _ (by decide), C2_theorem.2.2.2.2.2 _ _ (by decide)⟩

/-! ## Claim C8 — out-of-bounds writes are silent no-ops -/

/-- C8: on both backends, for every `(x, y)` outside `[0,W) × [0,H)`,
`SetCell` and `PutCell` leave the whole screen state (hence every cell's
runes, style, width and dirty flag) unchanged — the operations return no
error (their types admit none) — and `GetCell` returns `none`. -/
theorem C8_theorem :
    (∀ (t : TScreen) (x y : Int) (st : Style) (ch : List Nat) (cell : Cell),
      ¬ (0 ≤ x ∧ x < t.w ∧ 0 ≤ y ∧ y < t.h) →
      t.SetCell x y st ch = t ∧ t.PutCell x y cell = t ∧ t.GetCell x y = (none, t)) ∧
    (∀ (s : CScreen) (x y : Int) (st : Style) (ch : List Nat) (cell : Cell),
      ¬ (0 ≤ x ∧ x < s.w ∧ 0 ≤ y ∧ y < s.h) →
      s.SetCell x y st ch = s ∧ s.PutCell x y cell = s ∧ s.GetCell x y = (none, s)) := by
  constructor
  · intro t x y st ch cell h
    have hg : x < 0 ∨ y < 0 ∨ x ≥ t.w ∨ y ≥ t.h := by omega
    refine ⟨?_, ?_, ?_⟩
    · unfold TScreen.SetCell
      rw [if_pos (Or.inr hg)]
    · unfold TScreen.PutCell
      rw [if_pos (Or.inr hg)]
    · unfold TScreen.GetCell
      rw [if_pos (Or.inr hg)]
  · intro s x y st ch cell h
    have hg : x < 0 ∨ y < 0 ∨ x ≥ s.w ∨ y ≥ s.h := by omega
    refine ⟨?_, ?_, ?_⟩
    · unfold CScreen.SetCell
      rw [if_pos hg]
    · unfold CScreen.PutCell
      rw [if_pos hg]
    · unfold CScreen.GetCell
      rw [if_pos hg]

/-- C8 witness: `C8_theorem` on concrete 2×2 screens at the
out-of-bounds coordinate `(5, 0)`. -/
theorem C8_witness :
    TScreen.SetCell ⟨false, 2, 2, [], 0, 0, -1, -1, -1, -1, false⟩ 5 0 7 [66] =
      ⟨false, 2, 2, [], 0, 0, -1, -1, -1, -1, false⟩ ∧
    CScreen.GetCell ⟨2, 2, [], 0, -1, -1, false⟩ 5 0 =
      (none, ⟨2, 2, [], 0, -1, -1, false⟩) :=
  ⟨(C8_theorem.1 ⟨false, 2, 2, [], 0, 0, -1, -1, -1, -1, false⟩ 5 0 7 [66]
      ⟨[32], 0, 1, false⟩ (by decide)).1,
   (C8_theorem.2 ⟨2, 2, [], 0, -1, -1, false⟩ 5 0 7 [66]
      ⟨[32], 0, 1, false⟩ (by decide)).2.2⟩

/-! ## Claim C9 — `GetCell` returns a copy, not an alias -/

/-- C9: on both backends `GetCell` performs no write — its resulting
screen component is the input screen — and the returned cell is a value
copied out of the grid: re-reading the same coordinate yields the very
same cell, and no modification `f` of the caller's copy can make a
subsequent read return the modified value (the grid is unreachable from
the returned copy). -/
theorem C9_theorem :
    (∀ (t : TScreen) (x y : Int) (c : Cell), (t.GetCell x y).1 = some c →
      (t.GetCell x y).2 = t ∧ (t.GetCell x y).2.GetCell x y = (some c, t) ∧
      ∀ f : Cell → Cell, f c ≠ c → ((t.GetCell x y).2.GetCell x y).1 ≠ some (f c)) ∧
    (∀ (s : CScreen) (x y : Int) (c : Cell), (s.GetCell x y).1 = some c →
      (s.GetCell x y).2 = s ∧ (s.GetCell x y).2.GetCell x y = (some c, s) ∧
      ∀ f : Cell → Cell, f c ≠ c → ((s.GetCell x y).2.GetCell x y).1 ≠ some (f c)) := by
  constructor
  · intro t x y c h
    have hsnd : (t.GetCell x y).2 = t := by
      unfold TScreen.GetCell
      split <;> rfl
    have hre : (t.GetCell x y).2.GetCell x y = (some c, t) := by
      rw [hsnd]
      unfold TScreen.GetCell at h ⊢
      split at h
      · exact absurd h (by simp)
      · rw [if_neg (by assumption)]
        simpa using h
    refine ⟨hsnd, hre, fun f hf => ?_⟩
    rw [hre]
    simpa using fun he => hf he.symm
  · intro s x y c h
    have hsnd : (s.GetCell x y).2 = s := by
      unfold CScreen.GetCell
      split <;> rfl
    have hre : (s.GetCell x y).2.GetCell x y = (some c, s) := by
      rw [hsnd]
      unfold CScreen.GetCell at h ⊢
      split at h
      · exact absurd h (by simp)
      · rw [if_neg (by assumption)]
        simpa using h
    refine ⟨hsnd, hre, fun f hf => ?_⟩
    rw [hre]
    simpa using fun he => hf he.symm

/-- C9 witness: `C9_theorem` on a concrete 1×1 terminfo screen whose
single cell holds `'A'`, with the mutation overwriting the copy's rune
sequence. -/
theorem C9_witness :
    (TScreen.GetCell ⟨false, 1, 1, [⟨[65], 3, 1, false⟩], 0, 0, -1, -1, -1, -1, false⟩ 0 0).2 =
      ⟨false, 1, 1, [⟨[65], 3, 1, false⟩], 0, 0, -1, -1, -1, -1, false⟩ ∧
    ((TScreen.GetCell ⟨false, 1, 1, [⟨[65], 3, 1, false⟩], 0, 0, -1, -1, -1, -1, false⟩ 0 0).2.GetCell
      0 0).1 ≠ some (⟨[90], 3, 1, false⟩ : Cell) :=
  ⟨(C9_theorem.1 ⟨false, 1, 1, [⟨[65], 3, 1, false⟩], 0, 0, -1, -1, -1, -1, false⟩ 0 0
      ⟨[65], 3, 1, false⟩ (by decide)).1,
   (C9_theorem.1 ⟨false, 1, 1, [⟨[65], 3, 1, false⟩], 0, 0, -1, -1, -1, -1, false⟩ 0 0
      ⟨[65], 3, 1, false⟩ (by decide)).2.2 (fun _ => ⟨[90], 3, 1, false⟩) (by decide)⟩

/-! ## Claim C6 — the SGR `-` branch -/

/-- C6: the claim says a single leading `-` before any digit in an
integer state (3/4/5) is accepted and negates the field.  The source's
guard `state != 3 || state != 4 || state != 5` is a tautology, so every
`-` — here one in state 3 before any digit, in the report
`ESC [ < -1 ; 10 ; 20 M` — makes the parser return the definite
non-match `(false, false)` without consuming or posting anything.  The
claim (and the spec's stated intent) is what the code fails to do. -/
theorem C6_theorem :
    parseSgrMouse ⟨[], true, Charset.utf8, 100, 100⟩ false
      [27, 91, 60, 45, 49, 59, 49, 48, 59, 50, 48, 77] =
    ⟨false, false, [27, 91, 60, 45, 49, 59, 49, 48, 59, 50, 48, 77], [], false⟩ := by
  decide

/-! ## Claim C7 — legacy X11 mouse decoding -/

/-- C7 counterexample: the claim says all three trailing bytes are
offset by 33, the button parameter passed onward being `b - 33`.  For
the report `ESC [ M 0x23 0x2A 0x2B` the code passes the raw byte 35:
`35 & 0x43 = 3` decodes as a release (`ButtonNone`), whereas the
claimed `35 - 33 = 2` would decode as `Button3` — the emitted event
shows the raw byte was used. -/
theorem C7_counterexample :
    (parseXtermMouse ⟨[], true, Charset.utf8, 100, 100⟩ false
      [27, 91, 77, 35, 42, 43]).evs = [NewEventMouse 9 10 ButtonNone ModNone] ∧
    (parseXtermMouse ⟨[], true, Charset.utf8, 100, 100⟩ false
      [27, 91, 77, 35, 42, 43]).evs ≠ [NewEventMouse 9 10 Button3 ModNone] := by
  decide

/-- C7 amended: for every complete `ESC [ M b x y` report the decoder
consumes exactly the six bytes and posts exactly one mouse event built
by `postMouseEvent` from the coordinates offset by 33 (`x-33`, `y-33`)
and the RAW button byte `b` (not offset); with fewer than six bytes it
reports partial and posts nothing. -/
theorem C7_theorem :
    (∀ (scr : Scr) (wb : Bool) (b3 b4 b5 : Nat) (tl : List Nat),
      parseXtermMouse scr wb (27 :: 91 :: 77 :: b3 :: b4 :: b5 :: tl) =
        ⟨true, true, tl,
          [(postMouseEvent scr wb ((b4 : Int) - 32 - 1) ((b5 : Int) - 32 - 1) (b3 : Int)).2],
          (postMouseEvent scr wb ((b4 : Int) - 32 - 1) ((b5 : Int) - 32 - 1) (b3 : Int)).1⟩) ∧
    (∀ (scr : Scr) (wb : Bool) (b3 b4 : Nat),
      parseXtermMouse scr wb [27] = ⟨true, false, [27], [], wb⟩ ∧
      parseXtermMouse scr wb [27, 91] = ⟨true, false, [27, 91], [], wb⟩ ∧
      parseXtermMouse scr wb [27, 91, 77] = ⟨true, false, [27, 91, 77], [], wb⟩ ∧
      parseXtermMouse scr wb [27, 91, 77, b3] =
        ⟨true, false, [27, 91, 77, b3], [], wb⟩ ∧
      parseXtermMouse scr wb [27, 91, 77, b3, b4] =
        ⟨true, false, [27, 91, 77, b3, b4], [], wb⟩) :=
  ⟨fun _ _ _ _ _ _ => rfl, fun _ _ _ _ => ⟨rfl, rfl, rfl, rfl, rfl⟩⟩

/-! ## Claim C5 — SGR press/release scenario -/

/-- C5 counterexample: feeding `ESC [ < 0 ; 10 ; 20 M` (initial
`was_btn` false, 100×100 grid) emits `Mouse{10, 20, Button1, ModNone}` —
the raw SGR decimal coordinates, which the decoder does not convert to
0-based — not the `Mouse{9, 19, ...}` the claim states. -/
theorem C5_counterexample :
    scanInput ⟨[], true, Charset.utf8, 100, 100⟩ false
      [27, 91, 60, 48, 59, 49, 48, 59, 50, 48, 77] false =
      some ([NewEventMouse 10 20 Button1 ModNone], [], true) ∧
    scanInput ⟨[], true, Charset.utf8, 100, 100⟩ false
      [27, 91, 60, 48, 59, 49, 48, 59, 50, 48, 77] false ≠
      some ([NewEventMouse 9 19 Button1 ModNone], [], true) := by
  decide

/-- C5 amended: on a 100×100 grid with `was_btn` initially false,
`ESC [ < 0 ; 10 ; 20 M` emits exactly one event
`Mouse{10, 20, Button1, ModNone}` (decoder-provided coordinates are the
raw SGR decimal parameters, clipped to the grid) and sets `was_btn`;
then `ESC [ < 0 ; 10 ; 20 m` emits `Mouse{10, 20, ButtonNone, ModNone}`
and clears `was_btn`. -/
theorem C5_theorem :
    scanInput ⟨[], true, Charset.utf8, 100, 100⟩ false
      [27, 91, 60, 48, 59, 49, 48, 59, 50, 48, 77] false =
      some ([NewEventMouse 10 20 Button1 ModNone], [], true) ∧
    scanInput ⟨[], true, Charset.utf8, 100, 100⟩ true
      [27, 91, 60, 48, 59, 49, 48, 59, 50, 48, 109] false =
      some ([NewEventMouse 10 20 ButtonNone ModNone], [], false) := by
  decide

/-! ## Claim C4 — ambiguous function-key prefixes -/

/-- If no declared escape is a prefix of the buffer, the function-key
loop matches nothing: it returns `(acc || any(buffer-is-prefix), false)`
with the buffer intact and nothing posted. -/
theorem parseFunctionKeyAux_no_match (wb : Bool) (buf : List Nat)
    (keys : List (Key × List Nat)) (acc : Bool)
    (h : ∀ ke ∈ keys, ke.2.isPrefixOf buf = false) :
    parseFunctionKeyAux wb buf keys acc =
      ⟨acc || keys.any (fun ke => buf.isPrefixOf ke.2), false, buf, [], wb⟩ := by
  induction keys generalizing acc with
  | nil => simp [parseFunctionKeyAux]
  | cons ke rest ih =>
    have hke : ke.2.isPrefixOf buf = false := h ke (by simp)
    obtain ⟨k, esc⟩ := ke
    simp only [parseFunctionKeyAux, hke, Bool.false_eq_true, if_false]
    rw [ih _ (fun e he => h e (List.mem_cons_of_mem _ he))]
    simp [Bool.or_assoc]

/-- The function-key loop emits the first table entry whose escape is a
prefix of the buffer, consuming the escape — regardless of the
accumulated partial flag and of any longer escape further on. -/
theorem parseFunctionKeyAux_match (wb : Bool) (buf : List Nat)
    (keys : List (Key × List Nat)) (acc : Bool) (k : Key) (esc : List Nat)
    (h : keys.find? (fun ke => ke.2.isPrefixOf buf) = some (k, esc)) :
    parseFunctionKeyAux wb buf keys acc =
      ⟨true, true, buf.drop esc.length,
        [NewEventKey k (if esc.length = 1 then buf.headD 0 else 0) ModNone], wb⟩ := by
  induction keys generalizing acc with
  | nil => simp at h
  | cons ke rest ih =>
    rw [List.find?_cons] at h
    by_cases hke : ke.2.isPrefixOf buf = true
    · simp only [hke] at h
      obtain rfl : ke = (k, esc) := by simpa using h
      simp only [parseFunctionKeyAux, hke, if_true]
    · simp only [Bool.not_eq_true] at hke
      simp only [hke] at h
      obtain ⟨k0, esc0⟩ := ke
      have hke' : esc0.isPrefixOf buf = false := hke
      simp only [parseFunctionKeyAux]
      rw [if_neg (by simp [hke'])]
      exact ih _ h

/-- C4 counterexample: with the declared escapes `e1 = ESC O` and
`e2 = ESC O A` (`e1` a strict prefix of `e2`) and the buffer equal to
`e1`, the parser emits `e1`'s key immediately (`done = true`) even
though the longer `e2` is still possible given more bytes — it does not
report partial instead. -/
theorem C4_counterexample :
    (parseFunctionKey [(Key.named 1, [27, 79]), (Key.named 2, [27, 79, 65])]
      false [27, 79]).done = true ∧
    (parseFunctionKey [(Key.named 1, [27, 79]), (Key.named 2, [27, 79, 65])]
      false [27, 79]).evs = [NewEventKey (Key.named 1) 0 ModNone] ∧
    List.isPrefixOf [27, 79] [27, 79, 65] = true ∧
    [27, 79] ≠ [27, 79, 65] := by
  decide

/-- C4 amended: `parseFunctionKey` emits the first declared escape (in
table order) that is a prefix of the buffer — even when the buffer is
also a strict prefix of a longer declared escape — consuming exactly
that escape; it reports partial without emitting only when NO declared
escape is a prefix of the buffer, the partial flag being set exactly
when the buffer is a prefix of some escape. -/
theorem C4_theorem :
    (∀ (keys : List (Key × List Nat)) (wb : Bool) (buf : List Nat)
      (k : Key) (esc : List Nat),
      keys.find? (fun ke => ke.2.isPrefixOf buf) = some (k, esc) →
      parseFunctionKey keys wb buf =
        ⟨true, true, buf.drop esc.length,
          [NewEventKey k (if esc.length = 1 then buf.headD 0 else 0) ModNone], wb⟩) ∧
    (∀ (keys : List (Key × List Nat)) (wb : Bool) (buf : List Nat),
      (∀ ke ∈ keys, ke.2.isPrefixOf buf = false) →
      parseFunctionKey keys wb buf =
        ⟨keys.any (fun ke => buf.isPrefixOf ke.2), false, buf, [], wb⟩) := by
  constructor
  · intro keys wb buf k esc h
    exact parseFunctionKeyAux_match wb buf keys false k esc h
  · intro keys wb buf h
    have := parseFunctionKeyAux_no_match wb buf keys false h
    simpa [parseFunctionKey] using this

/-- C4 witness: `C4_theorem` at the concrete ambiguous table
`[(named 1, ESC O), (named 2, ESC O A)]`: the buffer `ESC O` emits the
short key, and the buffer `ESC` alone reports partial. -/
theorem C4_witness :
    parseFunctionKey [(Key.named 1, [27, 79]), (Key.named 2, [27, 79, 65])]
      false [27, 79] =
      ⟨true, true, [], [NewEventKey (Key.named 1) 0 ModNone], false⟩ ∧
    parseFunctionKey [(Key.named 1, [27, 79]), (Key.named 2, [27, 79, 65])]
      false [27] = ⟨true, false, [27], [], false⟩ :=
  ⟨by
    have := C4_theorem.1 [(Key.named 1, [27, 79]), (Key.named 2, [27, 79, 65])]
      false [27, 79] (Key.named 1) [27, 79] (by decide)
    simpa using this,
   by
    have := C4_theorem.2 [(Key.named 1, [27, 79]), (Key.named 2, [27, 79, 65])]
      false [27] (by decide)
    simpa using this⟩

/-! ## Claim C3 — the scan loop policy and the lone-ESC scenario -/

/-- One iteration of the scan loop when no sub-parser completes: if some
parser reported partial and `expire` is false, the loop stops consuming
nothing; otherwise it consumes exactly one byte, posts it as a raw
`KeyRune` event and continues on the rest. -/
theorem scanAux_step (scr : Scr) (expire : Bool) (fuel : Nat) (wb : Bool)
    (b0 : Nat) (rest : List Nat) (r1 : ParseOut)
    (hr1 : parseRune scr.charset wb (b0 :: rest) = some r1)
    (hd1 : r1.done = false)
    (hd2 : (parseFunctionKey scr.keys wb (b0 :: rest)).done = false)
    (hd34 : scr.hasMouse = true → (parseXtermMouse scr wb (b0 :: rest)).done = false ∧
      (parseSgrMouse scr wb (b0 :: rest)).done = false) :
    scanAux scr expire (fuel + 1) wb (b0 :: rest) =
      if (r1.needMore || (parseFunctionKey scr.keys wb (b0 :: rest)).needMore ||
          (scr.hasMouse && ((parseXtermMouse scr wb (b0 :: rest)).needMore ||
            (parseSgrMouse scr wb (b0 :: rest)).needMore))) = false ∨ expire = true then
        (scanAux scr expire fuel wb rest).map
          (fun o => (NewEventKey Key.keyRune b0 ModNone :: o.1, o.2.1, o.2.2))
      else some ([], b0 :: rest, wb) := by
  have hne : (b0 :: rest) ≠ [] := List.cons_ne_nil _ _
  cases hm : scr.hasMouse with
  | false =>
    simp only [scanAux, if_neg hne, hr1, hd1, hd2, hm, pcount]
    cases h1 : r1.needMore <;>
      cases h2 : (parseFunctionKey scr.keys wb (b0 :: rest)).needMore <;>
        cases expire <;> simp_all
  | true =>
    obtain ⟨hd3, hd4⟩ := hd34 hm
    simp only [scanAux, if_neg hne, hr1, hd1, hd2, hm, hd3, hd4, pcount]
    cases h1 : r1.needMore <;>
      cases h2 : (parseFunctionKey scr.keys wb (b0 :: rest)).needMore <;>
        cases h3 : (parseXtermMouse scr wb (b0 :: rest)).needMore <;>
          cases h4 : (parseSgrMouse scr wb (b0 :: rest)).needMore <;>
            cases expire <;> simp_all

/-- C3: one invocation of the scan loop, when no sub-parser completes:
(a) if some parser reported partial and `expire` is false, it stops,
consuming nothing and posting nothing; (b) if no parser reported partial
or `expire` is true, it consumes exactly one byte, posts it as
`Key=Rune` with the raw value and no modifiers, and continues on the
rest.  In particular (c) the single byte `0x1b` with `expire = false`
posts zero events (given a key table in which ESC begins some longer
escape but no whole escape, or mouse support), and (d) with
`expire = true` posts exactly `Key{Rune, 0x1b, ModNone}`. -/
theorem C3_theorem (scr : Scr) (wb : Bool) :
    (∀ (b0 : Nat) (rest : List Nat) (r1 : ParseOut),
      parseRune scr.charset wb (b0 :: rest) = some r1 → r1.done = false →
      (parseFunctionKey scr.keys wb (b0 :: rest)).done = false →
      (scr.hasMouse = true → (parseXtermMouse scr wb (b0 :: rest)).done = false ∧
        (parseSgrMouse scr wb (b0 :: rest)).done = false) →
      (r1.needMore || (parseFunctionKey scr.keys wb (b0 :: rest)).needMore ||
        (scr.hasMouse && ((parseXtermMouse scr wb (b0 :: rest)).needMore ||
          (parseSgrMouse scr wb (b0 :: rest)).needMore))) = true →
      scanInput scr wb (b0 :: rest) false = some ([], b0 :: rest, wb)) ∧
    (∀ (b0 : Nat) (rest : List Nat) (r1 : ParseOut) (expire : Bool),
      parseRune scr.charset wb (b0 :: rest) = some r1 → r1.done = false →
      (parseFunctionKey scr.keys wb (b0 :: rest)).done = false →
      (scr.hasMouse = true → (parseXtermMouse scr wb (b0 :: rest)).done = false ∧
        (parseSgrMouse scr wb (b0 :: rest)).done = false) →
      ((r1.needMore || (parseFunctionKey scr.keys wb (b0 :: rest)).needMore ||
        (scr.hasMouse && ((parseXtermMouse scr wb (b0 :: rest)).needMore ||
          (parseSgrMouse scr wb (b0 :: rest)).needMore))) = false ∨ expire = true) →
      scanInput scr wb (b0 :: rest) expire =
        (scanInput scr wb rest expire).map
          (fun o => (NewEventKey Key.keyRune b0 ModNone :: o.1, o.2.1, o.2.2))) ∧
    ((∀ ke ∈ scr.keys, ke.2.isPrefixOf [27] = false) →
      (scr.hasMouse = true ∨ ∃ ke ∈ scr.keys, [27].isPrefixOf ke.2 = true) →
      scanInput scr wb [27] false = some ([], [27], wb)) ∧
    ((∀ ke ∈ scr.keys, ke.2.isPrefixOf [27] = false) →
      scanInput scr wb [27] true = some ([NewEventKey Key.keyRune 27 ModNone], [], wb)) := by
  have hstop : ∀ (b0 : Nat) (rest : List Nat) (r1 : ParseOut),
      parseRune scr.charset wb (b0 :: rest) = some r1 → r1.done = false →
      (parseFunctionKey scr.keys wb (b0 :: rest)).done = false →
      (scr.hasMouse = true → (parseXtermMouse scr wb (b0 :: rest)).done = false ∧
        (parseSgrMouse scr wb (b0 :: rest)).done = false) →
      (r1.needMore || (parseFunctionKey scr.keys wb (b0 :: rest)).needMore ||
        (scr.hasMouse && ((parseXtermMouse scr wb (b0 :: rest)).needMore ||
          (parseSgrMouse scr wb (b0 :: rest)).needMore))) = true →
      scanInput scr wb (b0 :: rest) false = some ([], b0 :: rest, wb) := by
    intro b0 rest r1 hr1 hd1 hd2 hd34 hor
    unfold scanInput
    rw [scanAux_step scr false ((b0 :: rest).length) wb b0 rest r1 hr1 hd1 hd2 hd34]
    rw [if_neg]
    rintro (h | h)
    · rw [hor] at h
      simp at h
    · simp at h
  have hfall : ∀ (b0 : Nat) (rest : List Nat) (r1 : ParseOut) (expire : Bool),
      parseRune scr.charset wb (b0 :: rest) = some r1 → r1.done = false →
      (parseFunctionKey scr.keys wb (b0 :: rest)).done = false →
      (scr.hasMouse = true → (parseXtermMouse scr wb (b0 :: rest)).done = false ∧
        (parseSgrMouse scr wb (b0 :: rest)).done = false) →
      ((r1.needMore || (parseFunctionKey scr.keys wb (b0 :: rest)).needMore ||
        (scr.hasMouse && ((parseXtermMouse scr wb (b0 :: rest)).needMore ||
          (parseSgrMouse scr wb (b0 :: rest)).needMore))) = false ∨ expire = true) →
      scanInput scr wb (b0 :: rest) expire =
        (scanInput scr wb rest expire).map
          (fun o => (NewEventKey Key.keyRune b0 ModNone :: o.1, o.2.1, o.2.2)) := by
    intro b0 rest r1 expire hr1 hd1 hd2 hd34 hcond
    unfold scanInput
    rw [scanAux_step scr expire ((b0 :: rest).length) wb b0 rest r1 hr1 hd1 hd2 hd34]
    rw [if_pos hcond]
    rfl
  have hpfk : (∀ ke ∈ scr.keys, ke.2.isPrefixOf [27] = false) →
      parseFunctionKey scr.keys wb [27] =
        ⟨scr.keys.any (fun ke => List.isPrefixOf [27] ke.2), false, [27], [], wb⟩ :=
    fun hnp => parseFunctionKeyAux_no_match wb [27] scr.keys false hnp
  refine ⟨hstop, hfall, fun hnp hpart => ?_, fun hnp => ?_⟩
  · apply hstop 27 [] ⟨false, false, [27], [], wb⟩ rfl rfl
    · rw [hpfk hnp]
    · exact fun _ => ⟨rfl, rfl⟩
    · have h3 : (parseXtermMouse scr wb [27]).needMore = true := rfl
      rcases hpart with hm | ⟨ke, hmem, hpf⟩
      · simp [hm, h3]
      · rw [hpfk hnp]
        have : scr.keys.any (fun ke => List.isPrefixOf [27] ke.2) = true :=
          List.any_eq_true.mpr ⟨ke, hmem, hpf⟩
        simp [this]
  · have := hfall 27 [] ⟨false, false, [27], [], wb⟩ true rfl rfl
      (by rw [hpfk hnp]) (fun _ => ⟨rfl, rfl⟩) (Or.inr rfl)
    rw [this]
    rfl

/-- C3 witness: `C3_theorem` parts (c) and (d) at the concrete screen
whose key table is `[(named 3, ESC [ A)]` with mouse support, fed the
lone byte `0x1b`. -/
theorem C3_witness :
    scanInput ⟨[(Key.named 3, [27, 91, 65])], true, Charset.utf8, 80, 24⟩ false [27] false =
      some ([], [27], false) ∧
    scanInput ⟨[(Key.named 3, [27, 91, 65])], true, Charset.utf8, 80, 24⟩ false [27] true =
      some ([NewEventKey Key.keyRune 27 ModNone], [], false) :=
  ⟨(C3_theorem ⟨[(Key.named 3, [27, 91, 65])], true, Charset.utf8, 80, 24⟩ false).2.2.1
      (by decide) (Or.inl rfl),
   (C3_theorem ⟨[(Key.named 3, [27, 91, 65])], true, Charset.utf8, 80, 24⟩ false).2.2.2
      (by decide)⟩

/-! ## Claim C10 — the scan loop never faults and always terminates -/

/-- Decoding a rune from a non-empty buffer always occupies at least one
byte (Go's `DecodeRune` returns size 1 even for invalid encodings). -/
theorem utf8DecodeRune_pos (b : List Nat) (hb : b ≠ []) :
    1 ≤ (utf8DecodeRune b).2 := by
  cases b with
  | nil => exact absurd rfl hb
  | cons b0 rest =>
    simp only [utf8DecodeRune]
    repeat' split <;> first | omega | skip

/-- A completing `parseRune` strictly shrinks the buffer. -/
theorem parseRune_done_lt (cs : Charset) (wb : Bool) (buf : List Nat) (r : ParseOut)
    (h : parseRune cs wb buf = some r) (hd : r.done = true) :
    r.buf.length < buf.length := by
  cases buf with
  | nil => simp [parseRune] at h
  | cons b0 rest =>
    by_cases h1 : 32 ≤ b0 ∧ b0 ≤ 0x7F
    · simp only [parseRune, h1, if_true, Option.some_inj] at h
      subst h
      simp
    · by_cases h2 : b0 < 0x80
      · simp only [parseRune, h1, if_false, h2, if_true, Option.some_inj] at h
        subst h
        simp at hd
      · cases cs with
        | utf8 =>
          by_cases h3 : utf8FullRune (b0 :: rest) = true
          · simp only [parseRune, h1, h2, if_false, h3, if_true, Option.some_inj] at h
            subst h
            have hsz := utf8DecodeRune_pos (b0 :: rest) (by simp)
            simp only [List.length_drop, List.length_cons]
            omega
          · simp only [parseRune, h1, h2, h3, if_false, Option.some_inj] at h
            subst h
            simp at hd
        | usAscii =>
          simp only [parseRune, h1, h2, if_false, Option.some_inj] at h
          subst h
          simp

/-- A completing `parseFunctionKey` strictly shrinks the buffer, given
that no declared escape is empty (`prepareKey` skips empty capability
strings, src/tscreen.go:143). -/
theorem parseFunctionKeyAux_done_lt (wb : Bool) (buf : List Nat)
    (keys : List (Key × List Nat)) (acc : Bool)
    (hk : ∀ ke ∈ keys, ke.2 ≠ [])
    (hd : (parseFunctionKeyAux wb buf keys acc).done = true) :
    (parseFunctionKeyAux wb buf keys acc).buf.length < buf.length := by
  induction keys generalizing acc with
  | nil => simp [parseFunctionKeyAux] at hd
  | cons ke rest ih =>
    obtain ⟨k, esc⟩ := ke
    by_cases hpf : esc.isPrefixOf buf = true
    · have hlen : esc.length ≤ buf.length := (List.isPrefixOf_iff_prefix.mp hpf).length_le
      have hne : esc ≠ [] := hk (k, esc) (by simp)
      have hpos : 1 ≤ esc.length := by
        cases esc with
        | nil => exact absurd rfl hne
        | cons a l => simp
      simp only [parseFunctionKeyAux, hpf, if_true, List.length_drop]
      omega
    · have hpf' : esc.isPrefixOf buf = false := by
        cases hx : esc.isPrefixOf buf
        · rfl
        · exact absurd hx hpf
      simp only [parseFunctionKeyAux, hpf', Bool.false_eq_true, if_false] at hd ⊢
      exact ih _ (fun e he => hk e (List.mem_cons_of_mem _ he)) hd

/-- A completing `parseXtermMouse` run leaves strictly fewer bytes than
the original buffer. -/
theorem parseXtermMouseAux_done_lt (scr : Scr) (wb : Bool) (orig : List Nat) :
    ∀ (rem : List Nat) (state : Nat) (btn x : Int), rem.length ≤ orig.length →
    (parseXtermMouseAux scr wb orig rem state btn x).done = true →
    (parseXtermMouseAux scr wb orig rem state btn x).buf.length < orig.length := by
  intro rem
  induction rem with
  | nil =>
    intro state btn x hle hd
    simp [parseXtermMouseAux] at hd
  | cons c rest ih =>
    intro state btn x hle hd
    have hle' : rest.length ≤ orig.length := by
      simp only [List.length_cons] at hle
      omega
    have hlt : rest.length < orig.length := by
      simp only [List.length_cons] at hle
      omega
    rcases state with _ | _ | _ | _ | _ | s
    · revert hd
      simp only [parseXtermMouseAux]
      split_ifs with hc1 hc2 <;> intro hd
      · exact ih 1 btn x hle' hd
      · exact ih 2 btn x hle' hd
      · simp at hd
    · revert hd
      simp only [parseXtermMouseAux]
      split_ifs with hc1 <;> intro hd
      · exact ih 2 btn x hle' hd
      · simp at hd
    · revert hd
      simp only [parseXtermMouseAux]
      split_ifs with hc1 <;> intro hd
      · exact ih 3 btn x hle' hd
      · simp at hd
    · exact ih 4 _ _ hle' hd
    · exact ih 5 _ _ hle' hd
    · simpa using hlt

set_option maxHeartbeats 1000000 in
/-- A completing `parseSgrMouse` run leaves strictly fewer bytes than
the original buffer. -/
theorem parseSgrMouseAux_done_lt (scr : Scr) (wb : Bool) (orig : List Nat) :
    ∀ (rem : List Nat) (state : Nat) (btn x val : Int) (dig neg : Bool),
    rem.length ≤ orig.length →
    (parseSgrMouseAux scr wb orig rem state btn x val dig neg).done = true →
    (parseSgrMouseAux scr wb orig rem state btn x val dig neg).buf.length < orig.length := by
  intro rem
  induction rem with
  | nil =>
    intro state btn x val dig neg hle hd
    simp [parseSgrMouseAux] at hd
  | cons c rest ih =>
    intro state btn x val dig neg hle hd
    have hle' : rest.length ≤ orig.length := by
      simp only [List.length_cons] at hle
      omega
    have hlt : rest.length < orig.length := by
      simp only [List.length_cons] at hle
      omega
    revert hd
    simp only [parseSgrMouseAux]
    split_ifs <;> intro hd <;>
      first
        | exact hlt
        | exact ih _ _ _ _ _ _ hle' hd
        | simp at hd

/-- With no empty escape declared (as guaranteed by `prepareKey`), the
scan loop at fuel exceeding the buffer length always yields a result:
each restarted iteration has strictly consumed, the empty buffer returns
immediately, and no parser is ever consulted on an empty buffer. -/
theorem scanAux_isSome (scr : Scr) (expire : Bool)
    (hk : ∀ ke ∈ scr.keys, ke.2 ≠ []) :
    ∀ (fuel : Nat) (wb : Bool) (buf : List Nat), buf.length < fuel →
    (scanAux scr expire fuel wb buf).isSome = true := by
  intro fuel
  induction fuel with
  | zero =>
    intro wb buf h
    omega
  | succ fuel ih =>
    intro wb buf hlt
    cases buf with
    | nil => simp [scanAux]
    | cons b0 rest =>
      have hne : (b0 :: rest) ≠ [] := List.cons_ne_nil _ _
      have hlc : (b0 :: rest).length = rest.length + 1 := rfl
      simp only [scanAux, if_neg hne]
      cases hr1 : parseRune scr.charset wb (b0 :: rest) with
      | none => simp [parseRune] at hr1
      | some r1 =>
        by_cases hd1 : r1.done = true
        · have h1 := parseRune_done_lt scr.charset wb (b0 :: rest) r1 hr1 hd1
          simp only [hd1, if_true, Option.isSome_map']
          exact ih r1.wasbtn r1.buf (by omega)
        · simp only [Bool.eq_false_iff.mpr hd1, Bool.false_eq_true, if_false]
          by_cases hd2 : (parseFunctionKey scr.keys wb (b0 :: rest)).done = true
          · have h2 : (parseFunctionKey scr.keys wb (b0 :: rest)).buf.length <
                (b0 :: rest).length :=
              parseFunctionKeyAux_done_lt wb (b0 :: rest) scr.keys false hk hd2
            simp only [hd2, if_true, Option.isSome_map']
            exact ih _ _ (by omega)
          · simp only [Bool.eq_false_iff.mpr hd2, Bool.false_eq_true, if_false]
            by_cases hm : scr.hasMouse = true
            · simp only [hm, if_true]
              by_cases hd3 : (parseXtermMouse scr wb (b0 :: rest)).done = true
              · have h3 : (parseXtermMouse scr wb (b0 :: rest)).buf.length <
                    (b0 :: rest).length :=
                  parseXtermMouseAux_done_lt scr wb (b0 :: rest) (b0 :: rest)
                    0 0 0 le_rfl hd3
                simp only [hd3, if_true, Option.isSome_map']
                exact ih _ _ (by omega)
              · simp only [Bool.eq_false_iff.mpr hd3, Bool.false_eq_true, if_false]
                by_cases hd4 : (parseSgrMouse scr wb (b0 :: rest)).done = true
                · have h4 : (parseSgrMouse scr wb (b0 :: rest)).buf.length <
                      (b0 :: rest).length :=
                    parseSgrMouseAux_done_lt scr wb (b0 :: rest) (b0 :: rest)
                      0 0 0 0 false false le_rfl hd4
                  simp only [hd4, if_true, Option.isSome_map']
                  exact ih _ _ (by omega)
                · simp only [Bool.eq_false_iff.mpr hd4, Bool.false_eq_true, if_false]
                  split
                  · simp only [Option.isSome_map']
                    exact ih wb rest (by omega)
                  · rfl
            · simp only [Bool.eq_false_iff.mpr hm, Bool.false_eq_true, if_false]
              split
              · simp only [Option.isSome_map']
                exact ih wb rest (by omega)
              · rfl

/-- C10: the scan loop returns first when the buffer is empty, so the
unguarded first-byte access of `parseRune` — the `none` of the empty
case — is never reached: for every screen whose declared escapes are
non-empty (as `prepareKey` guarantees), every buffer, every `expire`
flag and every debounce state, `scanInput` produces a result (neither
faults nor diverges); `parseRune` itself is defined (`some`) on every
non-empty buffer, and only the empty buffer would fault. -/
theorem C10_theorem (scr : Scr) (hk : ∀ ke ∈ scr.keys, ke.2 ≠ [])
    (wb : Bool) (buf : List Nat) (expire : Bool) :
    (scanInput scr wb buf expire).isSome = true ∧
    parseRune scr.charset wb [] = none ∧
    (buf ≠ [] → (parseRune scr.charset wb buf).isSome = true) := by
  refine ⟨scanAux_isSome scr expire hk (buf.length + 1) wb buf (by omega), rfl, ?_⟩
  intro hne
  cases buf with
  | nil => exact absurd rfl hne
  | cons b0 rest => simp [parseRune]

/-- C10 witness: `C10_theorem` on a concrete screen and the partial
escape buffer `ESC [`. -/
theorem C10_witness :
    (scanInput ⟨[(Key.named 3, [27, 91, 65])], true, Charset.utf8, 80, 24⟩ false
      [27, 91] false).isSome = true :=
  (C10_theorem ⟨[(Key.named 3, [27, 91, 65])], true, Charset.utf8, 80, 24⟩ (by decide)
    false [27, 91] false).1
